import Mathlib

/-!
Verification of the NPV calculator in `src/app.py` (`calculate_npv` and its
helpers).  Numeric values are modelled by exact rationals `ℚ` in place of
Python floats; the non-finite float values produced by the literals
`inf`/`infinity`/`nan` are modelled by dedicated constructors of `PyNum`.
String processing (`str.split(',')`, `str.strip()`, the `float` constructor)
is modelled on `List Char` for the ASCII inputs the application deals with.
-/

namespace NPVApp

/-- Result of Python's `float(...)` constructor on a string: either a finite
value (modelled exactly as a rational), a signed infinity, or a NaN. -/
inductive PyNum where
  | fin (q : ℚ)
  | inf (neg : Bool)
  | nan
deriving DecidableEq

/-- Whether a `PyNum` is a finite number. -/
def PyNum.isFinite : PyNum → Bool
  | .fin _ => true
  | _ => false

/-- ASCII whitespace stripped by Python's `str.strip()` (space, tab, newline,
vertical tab, form feed, carriage return).  `str.strip()` also strips other
Unicode whitespace, which does not occur in the inputs modelled here. -/
def isPySpace (c : Char) : Bool :=
  c.toNat = 32 || c.toNat = 9 || c.toNat = 10 || c.toNat = 11 || c.toNat = 12 || c.toNat = 13

/-- Model of Python's `str.strip()`: drop whitespace from both ends. -/
def pystrip (l : List Char) : List Char :=
  ((l.dropWhile isPySpace).reverse.dropWhile isPySpace).reverse

/-- Model of Python's `str.split(',')`: split on every comma, keeping empty
tokens; the empty string yields the single token `""`. -/
def splitComma : List Char → List (List Char)
  | [] => [[]]
  | c :: rest =>
    match splitComma rest with
    | [] => [[]]
    | t :: ts => if c = ',' then [] :: t :: ts else (c :: t) :: ts

/-- Continuation of a digit run inside a Python numeric literal: consumes
further digits, where a single underscore may stand between two digits
(PEP 515), and returns the digits read (underscores removed) with the rest. -/
def digTail : List Char → List Char × List Char
  | [] => ([], [])
  | '_' :: c :: rest =>
    if c.isDigit then
      let (ds, r) := digTail rest
      (c :: ds, r)
    else ([], '_' :: c :: rest)
  | c :: rest =>
    if c.isDigit then
      let (ds, r) := digTail rest
      (c :: ds, r)
    else ([], c :: rest)

/-- A nonempty digit run (with optional internal underscores): returns the
digits and the remaining input, or `none` if the input does not start with a
digit. -/
def digRun (l : List Char) : Option (List Char × List Char) :=
  match l with
  | c :: rest =>
    if c.isDigit then
      let (ds, r) := digTail rest
      some (c :: ds, r)
    else none
  | [] => none

/-- Numeric value of a list of ASCII digits, most significant first. -/
def natOfDigits (ds : List Char) : ℕ :=
  ds.foldl (fun n c => 10 * n + (c.toNat - 48)) 0

/-- Optional leading sign of a Python float literal: returns whether the value
is negated, and the rest of the input. -/
def splitSign : List Char → Bool × List Char
  | '-' :: rest => (true, rest)
  | '+' :: rest => (false, rest)
  | l => (false, l)

/-- Optional fractional part `.digits` of a Python float literal: returns the
fraction digits and the remaining input (a bare `'.'` is consumed with no
digits). -/
def parseFrac : List Char → List Char × List Char
  | '.' :: rest =>
    match digRun rest with
    | some (ds, r) => (ds, r)
    | none => ([], rest)
  | l => ([], l)

/-- Optional exponent part `(e|E)[sign]digits` of a Python float literal:
returns the signed exponent and the remaining input, or `none` when an `e`/`E`
is present without following digits. -/
def parseExp (l : List Char) : Option (ℤ × List Char) :=
  match l with
  | c :: rest =>
    if c = 'e' || c = 'E' then
      let (neg, r) := splitSign rest
      match digRun r with
      | some (ds, r2) =>
        some (if neg then -(natOfDigits ds : ℤ) else (natOfDigits ds : ℤ), r2)
      | none => none
    else some (0, c :: rest)
  | [] => some (0, [])

/-- Unsigned numeric Python float literal `[digits][.digits][(e|E)[sign]digits]`
with at least one mantissa digit and nothing left over; its exact value. -/
def parseNumber (l : List Char) : Option ℚ :=
  let ipr := match digRun l with
    | some p => p
    | none => (([] : List Char), l)
  let fpr := parseFrac ipr.2
  if ipr.1 = [] && fpr.1 = [] then none
  else
    match parseExp fpr.2 with
    | none => none
    | some (e, rest) =>
      if rest = [] then
        some ((natOfDigits (ipr.1 ++ fpr.1) : ℚ) * (10 : ℚ) ^ (e - (fpr.1.length : ℤ)))
      else none

/-- Model of Python's `float(token)` on an already-stripped token: an optional
sign followed by either `inf`/`infinity`/`nan` (case-insensitive) or a numeric
literal; `none` models the `ValueError` raised on anything else. -/
def pyFloat (l : List Char) : Option PyNum :=
  let sr := splitSign l
  let low := sr.2.map Char.toLower
  if low = ['i', 'n', 'f'] || low = ['i', 'n', 'f', 'i', 'n', 'i', 't', 'y'] then
    some (PyNum.inf sr.1)
  else if low = ['n', 'a', 'n'] then some PyNum.nan
  else
    match parseNumber sr.2 with
    | some q => some (PyNum.fin (if sr.1 then -q else q))
    | none => none

/-- Model of the list comprehension
`[float(c.strip()) for c in cash_flows.split(',')]` applied to the token list:
the first token whose `float` fails raises `ValueError`, modelled by `none`. -/
def parseTokens : List (List Char) → Option (List PyNum)
  | [] => some []
  | t :: ts =>
    match pyFloat (pystrip t) with
    | none => none
    | some v =>
      match parseTokens ts with
      | none => none
      | some vs => some (v :: vs)

/-- The validation errors of `calculate_npv` (`app.py` lines 117-128), one per
distinct Spanish error message. -/
inductive VError where
  | invalidDiscountRate
  | invalidInvestment
  | invalidCashFlows
  | emptyCashFlows
deriving DecidableEq

/-- The condition `x is None or x < 0` used for the discount rate and the
initial investment (`app.py` lines 118 and 120). -/
def invalid_number (o : Option ℚ) : Bool :=
  match o with
  | none => true
  | some x => decide (x < 0)

/-- The validation phase of `calculate_npv` (`app.py` lines 117-128): discount
rate checked first, then the investment, then the cash-flow string is split on
commas, each token stripped and parsed with `float`; a parse failure gives the
`invalidCashFlows` error, and a parsed-but-empty list the `emptyCashFlows`
error.  On success, the rate, investment and parsed flows are returned. -/
def validate (discount_rate initial_investment : Option ℚ) (cash_flows : List Char) :
    Except VError (ℚ × ℚ × List PyNum) :=
  match discount_rate with
  | none => .error .invalidDiscountRate
  | some r =>
    if r < 0 then .error .invalidDiscountRate
    else
      match initial_investment with
      | none => .error .invalidInvestment
      | some inv =>
        if inv < 0 then .error .invalidInvestment
        else
          match parseTokens (splitComma cash_flows) with
          | none => .error .invalidCashFlows
          | some flows =>
            if flows.length = 0 then .error .emptyCashFlows
            else .ok (r, inv, flows)

/-- The validated inputs of the NPV computation (spec §3 `CalculationInput`). -/
structure CalculationInput where
  discountRatePercent : ℚ
  initialInvestment : ℚ
  cashFlows : List ℚ
deriving DecidableEq

/-- The `CalculationInput` invariants of spec §3: non-negative rate,
non-negative investment, non-empty cash flows (finiteness is built into `ℚ`). -/
def ValidInput (inp : CalculationInput) : Prop :=
  0 ≤ inp.discountRatePercent ∧ 0 ≤ inp.initialInvestment ∧ inp.cashFlows ≠ []

instance (inp : CalculationInput) : Decidable (ValidInput inp) := by
  unfold ValidInput; infer_instance

/-- Line 139 of `app.py`: `discount_rate_decimal = discount_rate / 100`. -/
def discount_rate_decimal (inp : CalculationInput) : ℚ :=
  inp.discountRatePercent / 100

/-- The discounting loop of `app.py` lines 142-144, with `k` the number of
already-processed flows: each flow `c` at loop index `i` (0-based) becomes
`c / (1 + r) ^ (i + 1)`. -/
def discountedAux (r : ℚ) (k : ℕ) : List ℚ → List ℚ
  | [] => []
  | c :: rest => c / (1 + r) ^ (k + 1) :: discountedAux r (k + 1) rest

/-- The list `discounted_cash_flows` built by the loop in `app.py` lines
141-144. -/
def discounted_cash_flows (inp : CalculationInput) : List ℚ :=
  discountedAux (discount_rate_decimal inp) 0 inp.cashFlows

/-- The accumulator `npv` of `app.py` lines 140-145: starts at
`-initial_investment` and adds each discounted flow in turn. -/
def npv (inp : CalculationInput) : ℚ :=
  (discounted_cash_flows inp).foldl (· + ·) (-inp.initialInvestment)

/-- Line 160 of `app.py`:
`cumulative_cash_flows = [-initial_investment] + discounted_cash_flows`. -/
def cumulative_cash_flows (inp : CalculationInput) : List ℚ :=
  -inp.initialInvestment :: discounted_cash_flows inp

/-- Line 161 of `app.py`: `cumulative_values` is the list of prefix sums
`sum(cumulative_cash_flows[:i+1])` for `i` ranging over the indices of
`cumulative_cash_flows`. -/
def cumulative_values (inp : CalculationInput) : List ℚ :=
  (List.range (cumulative_cash_flows inp).length).map
    (fun i => ((cumulative_cash_flows inp).take (i + 1)).sum)

/-- Lines 179-182 of `app.py`: the project is reported viable exactly when
`npv > 0`. -/
def project_viable (inp : CalculationInput) : Bool :=
  decide (0 < npv inp)

/-- Concrete input used by the witnesses: rate 100%, investment 5,
flows [2, 4, 8], so `r = 1` and each discounted flow is `1`. -/
def inpW : CalculationInput := ⟨100, 5, [2, 4, 8]⟩

/-- Concrete zero-rate input used by the zero-rate witness. -/
def inpZ : CalculationInput := ⟨0, 5, [1, 2, 3]⟩

lemma discountedAux_length (r : ℚ) : ∀ (flows : List ℚ) (k : ℕ),
    (discountedAux r k flows).length = flows.length
  | [], _ => rfl
  | _ :: rest, k => by
    simp [discountedAux, discountedAux_length r rest (k + 1)]

lemma discountedAux_getD (r : ℚ) : ∀ (flows : List ℚ) (k i : ℕ), i < flows.length →
    (discountedAux r k flows).getD i 0 = flows.getD i 0 / (1 + r) ^ (k + i + 1)
  | [], _, i, h => absurd h (by simp)
  | c :: rest, k, 0, _ => by simp [discountedAux]
  | c :: rest, k, i + 1, h => by
    simp only [discountedAux, List.getD_cons_succ]
    rw [discountedAux_getD r rest (k + 1) i (by simpa using h)]
    congr 2
    omega

lemma discountedAux_zero_rate : ∀ (flows : List ℚ) (k : ℕ),
    discountedAux 0 k flows = flows
  | [], _ => rfl
  | c :: rest, k => by
    simp [discountedAux, discountedAux_zero_rate rest (k + 1)]

lemma foldl_add_eq_add_sum : ∀ (l : List ℚ) (a : ℚ), l.foldl (· + ·) a = a + l.sum
  | [], a => by simp
  | x :: rest, a => by
    rw [List.foldl_cons, foldl_add_eq_add_sum rest (a + x), List.sum_cons]
    ring

lemma npv_eq_neg_add_sum (inp : CalculationInput) :
    npv inp = -inp.initialInvestment + (discounted_cash_flows inp).sum := by
  rw [npv, foldl_add_eq_add_sum]

lemma cumulative_values_length (inp : CalculationInput) :
    (cumulative_values inp).length = inp.cashFlows.length + 1 := by
  simp [cumulative_values, cumulative_cash_flows, discounted_cash_flows,
    discountedAux_length]

lemma cumulative_values_getD (inp : CalculationInput) (i : ℕ)
    (h : i < inp.cashFlows.length + 1) :
    (cumulative_values inp).getD i 0 = ((cumulative_cash_flows inp).take (i + 1)).sum := by
  have hlen : i < (cumulative_values inp).length := by
    rw [cumulative_values_length]; exact h
  rw [List.getD_eq_getElem _ _ hlen]
  simp [cumulative_values]

lemma parseTokens_length : ∀ (ts : List (List Char)) (vs : List PyNum),
    parseTokens ts = some vs → vs.length = ts.length
  | [], vs, h => by
    simp only [parseTokens, Option.some.injEq] at h
    simp [← h]
  | t :: ts, vs, h => by
    simp only [parseTokens] at h
    cases hf : pyFloat (pystrip t) with
    | none => rw [hf] at h; exact absurd h (by simp)
    | some v =>
      rw [hf] at h
      cases hr : parseTokens ts with
      | none => rw [hr] at h; exact absurd h (by simp)
      | some vs' =>
        rw [hr] at h
        simp only [Option.some.injEq] at h
        rw [← h]
        simp [parseTokens_length ts vs' hr]

lemma splitComma_ne_nil : ∀ s : List Char, splitComma s ≠ []
  | [] => by simp [splitComma]
  | c :: rest => by
    have := splitComma_ne_nil rest
    simp only [splitComma]
    cases h : splitComma rest with
    | nil => exact absurd h this
    | cons t ts =>
      by_cases hc : c = ','
      · simp [hc]
      · simp [hc]

example : (pyFloat "1000".toList).map PyNum.isFinite = some true := by decide
example : pyFloat "abc".toList = none := by decide
example : pyFloat "inf".toList = some (PyNum.inf false) := by decide
example : pyFloat "-Infinity".toList = some (PyNum.inf true) := by decide
example : pyFloat "nan".toList = some PyNum.nan := by decide
example : (pyFloat "-1.5e2".toList).map PyNum.isFinite = some true := by decide
example : (pyFloat "1_0.2_5".toList).map PyNum.isFinite = some true := by decide
example : pyFloat "1_".toList = none := by decide
example : pyFloat ".".toList = none := by decide
example : pyFloat "".toList = none := by decide
example : natOfDigits "1230".toList = 1230 := by decide
example : splitComma "a,b".toList = [['a'], ['b']] := by decide
example : splitComma "".toList = [[]] := by decide
example : parseTokens (splitComma "1000, abc, 2000".toList) = none := by decide

/-- Claim C1: for every valid `CalculationInput` the engine computes
`r = discountRatePercent / 100`, the `i`-th discounted flow (0-based index
`i`, 1-indexed period `i + 1`) as `c_i / (1 + r) ^ (i + 1)`, and `npv` as
`-initialInvestment` plus the sum of the discounted flows. -/
theorem npv_engine_formula (inp : CalculationInput) (h : ValidInput inp) :
    npv inp = -inp.initialInvestment + (discounted_cash_flows inp).sum ∧
    ∀ i, i < inp.cashFlows.length →
      (discounted_cash_flows inp).getD i 0
        = inp.cashFlows.getD i 0 / (1 + inp.discountRatePercent / 100) ^ (i + 1) := by
  refine ⟨npv_eq_neg_add_sum inp, fun i hi => ?_⟩
  rw [discounted_cash_flows, discountedAux_getD _ _ 0 i hi, discount_rate_decimal]
  simp [Nat.zero_add]

/-- Witness for C1 at the concrete input `inpW`. -/
theorem npv_engine_formula_witness :
    ValidInput inpW ∧
    (npv inpW = -inpW.initialInvestment + (discounted_cash_flows inpW).sum ∧
     ∀ i, i < inpW.cashFlows.length →
       (discounted_cash_flows inpW).getD i 0
         = inpW.cashFlows.getD i 0 / (1 + inpW.discountRatePercent / 100) ^ (i + 1)) :=
  ⟨by decide, npv_engine_formula inpW (by decide)⟩

/-- Claim C2: for every valid `CalculationInput`, the discounted list has the
same length as `cashFlows`, the cumulative list has one more element, its
head is `-initialInvestment`, and its `i`-th entry (for `1 ≤ i ≤ n`) is
`-initialInvestment` plus the sum of the first `i` discounted flows. -/
theorem result_series_shape (inp : CalculationInput) (h : ValidInput inp) :
    (discounted_cash_flows inp).length = inp.cashFlows.length ∧
    (cumulative_values inp).length = inp.cashFlows.length + 1 ∧
    (cumulative_values inp).getD 0 0 = -inp.initialInvestment ∧
    ∀ i, 1 ≤ i → i ≤ inp.cashFlows.length →
      (cumulative_values inp).getD i 0
        = -inp.initialInvestment + ((discounted_cash_flows inp).take i).sum := by
  refine ⟨discountedAux_length _ _ _, cumulative_values_length inp, ?_, fun i h1 h2 => ?_⟩
  · rw [cumulative_values_getD inp 0 (by omega)]
    simp [cumulative_cash_flows]
  · rw [cumulative_values_getD inp i (by omega), cumulative_cash_flows,
      List.take_succ_cons, List.sum_cons]

/-- Witness for C2 at the concrete input `inpW`. -/
theorem result_series_shape_witness :
    ValidInput inpW ∧
    ((discounted_cash_flows inpW).length = inpW.cashFlows.length ∧
     (cumulative_values inpW).length = inpW.cashFlows.length + 1 ∧
     (cumulative_values inpW).getD 0 0 = -inpW.initialInvestment ∧
     ∀ i, 1 ≤ i → i ≤ inpW.cashFlows.length →
       (cumulative_values inpW).getD i 0
         = -inpW.initialInvestment + ((discounted_cash_flows inpW).take i).sum) :=
  ⟨by decide, result_series_shape inpW (by decide)⟩

/-- Claim C3: for every valid `CalculationInput`, the cumulative list has
length `n + 1` and its last entry (index `n`) equals the computed `npv`. -/
theorem cumulative_last_eq_npv (inp : CalculationInput) (h : ValidInput inp) :
    (cumulative_values inp).length = inp.cashFlows.length + 1 ∧
    (cumulative_values inp).getD inp.cashFlows.length 0 = npv inp := by
  refine ⟨cumulative_values_length inp, ?_⟩
  rw [cumulative_values_getD inp _ (by omega)]
  have hl : (cumulative_cash_flows inp).length ≤ inp.cashFlows.length + 1 := by
    simp [cumulative_cash_flows, discounted_cash_flows, discountedAux_length]
  rw [List.take_of_length_le hl, cumulative_cash_flows, List.sum_cons,
    npv_eq_neg_add_sum]

/-- Witness for C3 at the concrete input `inpW`. -/
theorem cumulative_last_eq_npv_witness :
    ValidInput inpW ∧
    ((cumulative_values inpW).length = inpW.cashFlows.length + 1 ∧
     (cumulative_values inpW).getD inpW.cashFlows.length 0 = npv inpW) :=
  ⟨by decide, cumulative_last_eq_npv inpW (by decide)⟩

/-- Claim C4: validation checks the discount rate first, then the investment,
then the cash flows, short-circuiting at the first failure: an invalid
(missing or negative) rate reports `invalidDiscountRate` whatever the other
inputs (in particular when the investment is also missing or negative); a
valid rate with an invalid investment reports `invalidInvestment` whatever
the cash-flow string; and with both valid, an unparseable cash-flow string
reports `invalidCashFlows`. -/
theorem validate_checks_in_order :
    (∀ (dr iv : Option ℚ) (cf : List Char), invalid_number dr = true →
      validate dr iv cf = Except.error VError.invalidDiscountRate) ∧
    (∀ (dr iv : Option ℚ) (cf : List Char), invalid_number dr = false →
      invalid_number iv = true →
      validate dr iv cf = Except.error VError.invalidInvestment) ∧
    (∀ (dr iv : Option ℚ) (cf : List Char), invalid_number dr = false →
      invalid_number iv = false → parseTokens (splitComma cf) = none →
      validate dr iv cf = Except.error VError.invalidCashFlows) := by
  refine ⟨?_, ?_, ?_⟩
  · intro dr iv cf hdr
    cases dr with
    | none => rfl
    | some r =>
      simp only [invalid_number, decide_eq_true_eq] at hdr
      simp [validate, hdr]
  · intro dr iv cf hdr hiv
    cases dr with
    | none => simp [invalid_number] at hdr
    | some r =>
      simp only [invalid_number, decide_eq_false_iff_not] at hdr
      cases iv with
      | none => simp [validate, hdr]
      | some v =>
        simp only [invalid_number, decide_eq_true_eq] at hiv
        simp [validate, hdr, hiv]
  · intro dr iv cf hdr hiv hp
    cases dr with
    | none => simp [invalid_number] at hdr
    | some r =>
      simp only [invalid_number, decide_eq_false_iff_not] at hdr
      cases iv with
      | none => simp [invalid_number] at hiv
      | some v =>
        simp only [invalid_number, decide_eq_false_iff_not] at hiv
        simp [validate, hdr, hiv, hp]

/-- Witness for C4, one concrete instance per step of the order: negative rate
with missing investment reports `invalidDiscountRate`; valid rate with
negative investment and a malformed cash-flow string reports
`invalidInvestment`; valid rate and investment with a malformed cash-flow
string report `invalidCashFlows`. -/
theorem validate_checks_in_order_witness :
    (invalid_number (some (-1)) = true ∧ invalid_number none = true ∧
     validate (some (-1)) none "1".toList = Except.error VError.invalidDiscountRate) ∧
    (invalid_number (some 10) = false ∧ invalid_number (some (-2)) = true ∧
     validate (some 10) (some (-2)) "abc".toList
       = Except.error VError.invalidInvestment) ∧
    (invalid_number (some 10) = false ∧ invalid_number (some 5000) = false ∧
     parseTokens (splitComma "abc".toList) = none ∧
     validate (some 10) (some 5000) "abc".toList
       = Except.error VError.invalidCashFlows) :=
  ⟨⟨by decide, by decide,
     validate_checks_in_order.1 (some (-1)) none "1".toList (by decide)⟩,
   ⟨by decide, by decide,
     validate_checks_in_order.2.1 (some 10) (some (-2)) "abc".toList
       (by decide) (by decide)⟩,
   ⟨by decide, by decide, by decide,
     validate_checks_in_order.2.2 (some 10) (some 5000) "abc".toList
       (by decide) (by decide) (by decide)⟩⟩

/-- Counterexample to claim C5 as stated: the token `inf` does not denote a
finite number, yet `float("inf")` succeeds in Python, so validation accepts
the string `"inf"` instead of failing with `invalidCashFlows`. -/
theorem invalid_cash_flows_finite_counterexample :
    parseTokens (splitComma "inf".toList) = some [PyNum.inf false] ∧
    (PyNum.inf false).isFinite = false ∧
    validate (some 10) (some 5000) "inf".toList
      = Except.ok (10, 5000, [PyNum.inf false]) :=
  ⟨by decide, rfl, rfl⟩

/-- Claim C5 (amended): with an already-valid rate and investment, validation
fails with `invalidCashFlows` exactly when some comma-separated token, after
trimming, fails to parse under Python `float` (tokens such as `inf` or `nan`
parse to non-finite values and are accepted); in particular the string
`"1000, abc, 2000"` fails with `invalidCashFlows`. -/
theorem invalid_cash_flows_iff_parse_failure (r v : ℚ) (s : List Char)
    (hr : 0 ≤ r) (hv : 0 ≤ v) :
    (validate (some r) (some v) s = Except.error VError.invalidCashFlows ↔
      parseTokens (splitComma s) = none) ∧
    validate (some r) (some v) "1000, abc, 2000".toList
      = Except.error VError.invalidCashFlows := by
  have hr' : ¬ r < 0 := not_lt.mpr hr
  have hv' : ¬ v < 0 := not_lt.mpr hv
  have key : ∀ t : List Char,
      validate (some r) (some v) t = Except.error VError.invalidCashFlows ↔
        parseTokens (splitComma t) = none := by
    intro t
    cases hp : parseTokens (splitComma t) with
    | none => simp [validate, hr', hv', hp]
    | some flows =>
      simp only [validate, hr', hv', if_false, hp]
      split <;> simp
  exact ⟨key s, (key _).mpr (by decide)⟩

/-- Witness for the amended C5 at rate 10, investment 5000 and the cash-flow
string `"abc"`. -/
theorem invalid_cash_flows_iff_parse_failure_witness :
    (0 : ℚ) ≤ 10 ∧ (0 : ℚ) ≤ 5000 ∧
    ((validate (some 10) (some 5000) "abc".toList
        = Except.error VError.invalidCashFlows ↔
      parseTokens (splitComma "abc".toList) = none) ∧
     validate (some 10) (some 5000) "1000, abc, 2000".toList
       = Except.error VError.invalidCashFlows) :=
  ⟨by decide, by decide,
    invalid_cash_flows_iff_parse_failure 10 5000 "abc".toList (by decide) (by decide)⟩

/-- Claim C6: for every valid `CalculationInput`, the project is reported
viable exactly when `npv` is strictly positive; an `npv` of zero is reported
non-viable. -/
theorem viability_strict_positive (inp : CalculationInput) (h : ValidInput inp) :
    (project_viable inp = true ↔ 0 < npv inp) ∧
    (npv inp = 0 → project_viable inp = false) := by
  constructor
  · simp [project_viable]
  · intro h0
    simp [project_viable, h0, lt_irrefl]

/-- Witness for C6 at the concrete input `inpW`. -/
theorem viability_strict_positive_witness :
    ValidInput inpW ∧
    ((project_viable inpW = true ↔ 0 < npv inpW) ∧
     (npv inpW = 0 → project_viable inpW = false)) :=
  ⟨by decide, viability_strict_positive inpW (by decide)⟩

/-- Claim C7: for every valid `CalculationInput` with a zero discount rate,
the computed `npv` equals the plain sum of the cash flows minus the initial
investment, exactly. -/
theorem zero_rate_identity (inp : CalculationInput) (h : ValidInput inp)
    (h0 : inp.discountRatePercent = 0) :
    npv inp = inp.cashFlows.sum - inp.initialInvestment := by
  have hr : discount_rate_decimal inp = 0 := by
    rw [discount_rate_decimal, h0, zero_div]
  rw [npv_eq_neg_add_sum, discounted_cash_flows, hr, discountedAux_zero_rate]
  ring

/-- Witness for C7 at the concrete zero-rate input `inpZ`. -/
theorem zero_rate_identity_witness :
    ValidInput inpZ ∧ inpZ.discountRatePercent = 0 ∧
    npv inpZ = inpZ.cashFlows.sum - inpZ.initialInvestment :=
  ⟨by decide, rfl, zero_rate_identity inpZ (by decide) rfl⟩

/-- Claim C8: for every valid `CalculationInput` whose discount rate is
strictly positive (equivalently `r = discountRatePercent / 100 > 0`) and
whose cash flows are all strictly positive, each discounted flow is strictly
smaller than the corresponding cash flow. -/
theorem discounted_lt_cash_flow (inp : CalculationInput) (h : ValidInput inp)
    (hr : 0 < inp.discountRatePercent)
    (hpos : ∀ c ∈ inp.cashFlows, 0 < c) :
    0 < discount_rate_decimal inp ∧
    ∀ i, i < inp.cashFlows.length →
      (discounted_cash_flows inp).getD i 0 < inp.cashFlows.getD i 0 := by
  have hrr : 0 < discount_rate_decimal inp := by
    rw [discount_rate_decimal]
    positivity
  refine ⟨hrr, fun i hi => ?_⟩
  rw [discounted_cash_flows, discountedAux_getD _ _ 0 i hi]
  have hc : 0 < inp.cashFlows.getD i 0 := by
    apply hpos
    rw [List.getD_eq_getElem _ _ hi]
    exact List.getElem_mem hi
  exact div_lt_self hc (one_lt_pow₀ (by linarith) (by omega))

/-- Witness for C8 at the concrete input `inpW`. -/
theorem discounted_lt_cash_flow_witness :
    ValidInput inpW ∧ 0 < inpW.discountRatePercent ∧
    (∀ c ∈ inpW.cashFlows, 0 < c) ∧
    (0 < discount_rate_decimal inpW ∧
     ∀ i, i < inpW.cashFlows.length →
       (discounted_cash_flows inpW).getD i 0 < inpW.cashFlows.getD i 0) :=
  ⟨by decide, by decide, by decide,
    discounted_lt_cash_flow inpW (by decide) (by decide) (by decide)⟩

/-- Claim C9: for every valid `CalculationInput` the discount factor base
satisfies `1 ≤ 1 + r`, every divisor `(1 + r) ^ (i + 1)` in the discounting
loop is nonzero, and each division is exact: multiplying the discounted flow
back by its divisor recovers the cash flow, so the engine is total. -/
theorem engine_division_safe (inp : CalculationInput) (h : ValidInput inp) :
    1 ≤ 1 + discount_rate_decimal inp ∧
    (∀ i : ℕ, ((1 : ℚ) + discount_rate_decimal inp) ^ (i + 1) ≠ 0) ∧
    ∀ i, i < inp.cashFlows.length →
      (discounted_cash_flows inp).getD i 0 * (1 + discount_rate_decimal inp) ^ (i + 1)
        = inp.cashFlows.getD i 0 := by
  have hr : 0 ≤ discount_rate_decimal inp := by
    rw [discount_rate_decimal]
    exact div_nonneg h.1 (by norm_num)
  refine ⟨by linarith, fun i => pow_ne_zero _ (by linarith), fun i hi => ?_⟩
  rw [discounted_cash_flows, discountedAux_getD _ _ 0 i hi]
  simp only [Nat.zero_add]
  exact div_mul_cancel₀ _ (pow_ne_zero _ (by linarith))

/-- Witness for C9 at the concrete input `inpW`. -/
theorem engine_division_safe_witness :
    ValidInput inpW ∧
    (1 ≤ 1 + discount_rate_decimal inpW ∧
     (∀ i : ℕ, ((1 : ℚ) + discount_rate_decimal inpW) ^ (i + 1) ≠ 0) ∧
     ∀ i, i < inpW.cashFlows.length →
       (discounted_cash_flows inpW).getD i 0 * (1 + discount_rate_decimal inpW) ^ (i + 1)
         = inpW.cashFlows.getD i 0) :=
  ⟨by decide, engine_division_safe inpW (by decide)⟩

/-- Claim C10: splitting on commas always yields at least one token, so the
dedicated "at least one cash flow" branch is unreachable for every input;
an empty string and a string with an empty token (a trailing comma) are both
reported as `invalidCashFlows`. -/
theorem empty_flows_branch_unreachable :
    (∀ s : List Char, splitComma s ≠ []) ∧
    (∀ (dr iv : Option ℚ) (s : List Char),
      validate dr iv s ≠ Except.error VError.emptyCashFlows) ∧
    validate (some 10) (some 5000) "".toList
      = Except.error VError.invalidCashFlows ∧
    validate (some 10) (some 5000) "1000,".toList
      = Except.error VError.invalidCashFlows := by
  refine ⟨splitComma_ne_nil, ?_, rfl, rfl⟩
  intro dr iv s
  cases dr with
  | none => simp [validate]
  | some r =>
    by_cases hr : r < 0
    · simp [validate, hr]
    · cases iv with
      | none => simp [validate, hr]
      | some v =>
        by_cases hv : v < 0
        · simp [validate, hr, hv]
        · cases hp : parseTokens (splitComma s) with
          | none => simp [validate, hr, hv, hp]
          | some flows =>
            have hne : flows.length ≠ 0 := by
              rw [parseTokens_length _ _ hp]
              intro hlen
              exact splitComma_ne_nil s (List.length_eq_zero.mp hlen)
            simp [validate, hr, hv, hp, hne]

end NPVApp
